import Mathlib

/-!
Shallow embedding of the EPG-viewer core (Node/Express XMLTV pipeline).

Sources embedded here:
  * `epg-viewer/src/xmltv.js`       — `xmltvTimeToIso`, `isoToXmltvTime`
  * `epg-viewer/src/streamXmltv.js` — `streamParseXmltv` (programme events), `setMapping` (store)
  * `epg-viewer/server.js`          — `normalizeXmltvOffsetZero`, `formatXmltvWithZone`,
                                      `backfillFromHistory`, export timestamp emission,
                                      the `/api/export/prewarm` handler
  * `src/mirror.js`                 — `mirrorFetch`, `forceDownload`, `listSnapshots`,
                                      `pruneSnapshots`, `tsStamp`

Modelling conventions:
  * JS timestamps (ISO strings / `Date.parse` results) are modelled as epoch
    milliseconds (`Int`); `null` / `NaN` become `Option.none`.  The canonical
    `Date.prototype.toISOString` rendering is strictly monotone in the epoch
    value over the years 0–9999, so string comparison and equality of the ISO
    strings used by the code coincide with comparison and equality of the
    modelled integers.
  * JS objects used as string-keyed maps become association lists preserving
    key insertion order (JS enumeration order for string keys).
  * Truthiness of a nullable string is `Option.isSome` after mapping `""` to
    `none` (`jsOrNull`).
  * `Array.prototype.sort` with the source's comparators is modelled by a
    stable insertion sort; for comparators that form a total preorder on the
    list at hand (the only case in which ECMAScript pins the result down)
    every stable sort, in particular V8's, produces this output.
  * Unicode-aware `trim` / `toLowerCase` are modelled by Lean's ASCII
    versions; every input exercised by a theorem below is ASCII.
-/

namespace EpgViewer

/-- JS `x || null` on a nullable string: the empty string is falsy. -/
def jsOrNull : Option String → Option String
  | none => none
  | some s => if s = "" then none else some s

/-- Truthiness of a nullable JS string value. -/
def jsTruthy (x : Option String) : Bool :=
  (jsOrNull x).isSome

/-- JS `ToInt32` (the `|0` coercion) on an integral value. -/
def toInt32 (n : Int) : Int :=
  if n % 4294967296 < 2147483648 then n % 4294967296 else n % 4294967296 - 4294967296

/-- JS `String.prototype.trim` on character lists (both ends). -/
def trimChars (cs : List Char) : List Char :=
  ((cs.dropWhile Char.isWhitespace).reverse.dropWhile Char.isWhitespace).reverse

/-- JS `s.trim()`. -/
def jsTrim (s : String) : String := String.mk (trimChars s.toList)

/-- JS `s.toLowerCase()` (ASCII model). -/
def jsToLower (s : String) : String := String.mk (s.toList.map Char.toLower)

/-- JS `s.startsWith(p)`. -/
def strStartsWith (s p : String) : Bool := p.toList.isPrefixOf s.toList

/-- JS `s.endsWith(p)`. -/
def strEndsWith (s p : String) : Bool := p.toList.reverse.isPrefixOf s.toList.reverse

/-- JS `String(n).padStart(2, '0')` for a natural number. -/
def pad2 (n : Nat) : String :=
  (if n < 10 then "0" else "") ++ toString n

/-- JS `String(n).padStart(4, '0')` for a natural number. -/
def pad4 (n : Nat) : String :=
  (if n < 10 then "000" else if n < 100 then "00" else if n < 1000 then "0" else "") ++ toString n

/-- JS `String.prototype.includes` on character lists. -/
def containsSub (needle hay : List Char) : Bool :=
  match hay with
  | [] => needle.isEmpty
  | _ :: t => if needle.isPrefixOf hay then true else containsSub needle t

/-- JS `haystack.includes(needle)` for strings. -/
def strIncludes (hay needle : String) : Bool :=
  containsSub needle.toList hay.toList

/-! ### Proleptic-Gregorian calendar arithmetic (the arithmetic inside JS `Date`) -/

/-- Days since 1970-01-01 of a civil date (Howard Hinnant's algorithm;
`/` and `%` on `Int` are euclidean, which equals floor division for the
positive divisors used here). -/
def daysFromCivil (y m d : Int) : Int :=
  let y2 := if m ≤ 2 then y - 1 else y
  let era := y2 / 400
  let yoe := y2 - era * 400
  let mp := (m + 9) % 12
  let doy := (153 * mp + 2) / 5 + d - 1
  let doe := yoe * 365 + yoe / 4 - yoe / 100 + doy
  era * 146097 + doe - 719468

/-- Civil date (year, month, day) of a day count since 1970-01-01. -/
def civilFromDays (z0 : Int) : Int × Int × Int :=
  let z := z0 + 719468
  let era := z / 146097
  let doe := z - era * 146097
  let yoe := (doe - doe / 1460 + doe / 36524 - doe / 146096) / 365
  let y := yoe + era * 400
  let doy := doe - (365 * yoe + yoe / 4 - yoe / 100)
  let mp := (5 * doy + 2) / 153
  let d := doy - (153 * mp + 2) / 5 + 1
  let m := if mp < 10 then mp + 3 else mp - 9
  (if m ≤ 2 then y + 1 else y, m, d)

def isLeapYear (y : Int) : Bool :=
  (y % 4 = 0 ∧ y % 100 ≠ 0) ∨ y % 400 = 0

def daysInMonth (y m : Int) : Int :=
  if m = 2 then (if isLeapYear y then 29 else 28)
  else if m = 4 ∨ m = 6 ∨ m = 9 ∨ m = 11 then 30
  else 31

/-- Wall-clock digit fields of an XMLTV timestamp (`YYYYMMDDhhmmss`). -/
structure WallDigits where
  Y : Nat
  Mo : Nat
  D : Nat
  H : Nat
  Mi : Nat
  S : Nat
deriving Repr, DecidableEq

/-- Validity of the date/time fields under the ECMAScript ISO date-time
parser (which `new Date(iso)` applies to the strings built by
`xmltvTimeToIso`): month 1–12, day within the month, `24:00:00` allowed as
the end of a day, offset hours ≤ 23 and minutes ≤ 59. -/
def validDateTime (w : WallDigits) (offMin : Int) : Bool :=
  1 ≤ w.Mo ∧ w.Mo ≤ 12 ∧ 1 ≤ w.D ∧ (w.D : Int) ≤ daysInMonth w.Y w.Mo ∧
  ((w.H < 24 ∧ w.Mi < 60 ∧ w.S < 60) ∨ (w.H = 24 ∧ w.Mi = 0 ∧ w.S = 0)) ∧
  offMin.natAbs / 60 ≤ 23 ∧ offMin.natAbs % 60 ≤ 59

/-- Epoch milliseconds of valid wall digits read at a fixed UTC offset. -/
def wallDigitsToMs (w : WallDigits) (offMin : Int) : Int :=
  (daysFromCivil w.Y w.Mo w.D * 86400 + w.H * 3600 + w.Mi * 60 + w.S) * 1000 - offMin * 60000

/-- UTC wall digits of an epoch-millisecond instant (the `getUTC*` fields). -/
def msToWallDigits (ms : Int) : WallDigits :=
  let days := ms / 86400000
  let rem := (ms % 86400000) / 1000
  let c := civilFromDays days
  { Y := c.1.toNat, Mo := c.2.1.toNat, D := c.2.2.toNat,
    H := (rem / 3600).toNat, Mi := ((rem / 60) % 60).toNat, S := (rem % 60).toNat }

/-! ### Character-level scanning shared by the timestamp regexes -/

def digitVal (c : Char) : Nat := c.toNat - 48

def digitsToNat (cs : List Char) : Nat :=
  cs.foldl (fun acc c => acc * 10 + digitVal c) 0

/-- Splits `cs` into its first fourteen characters and the rest, provided the
first fourteen are all ASCII digits (the `\d{14}` prefix every timestamp
regex in the code starts with). -/
def take14Digits (cs : List Char) : Option (List Char × List Char) :=
  if (cs.take 14).length = 14 ∧ (cs.take 14).all Char.isDigit
  then some (cs.take 14, cs.drop 14) else none

def isSignChar (c : Char) : Bool := c = '+' ∨ c = '-'

/-- Scans `[+\-]\d{4}|Z` against the entire remainder, returning the signed
offset minutes exactly as `sign * (hh*60 + mm)`. -/
def scanOffsetTail (cs : List Char) : Option Int :=
  match cs with
  | ['Z'] => some 0
  | [c, h1, h2, m1, m2] =>
    if isSignChar c ∧ h1.isDigit ∧ h2.isDigit ∧ m1.isDigit ∧ m2.isDigit then
      let v : Int := (digitVal h1 * 10 + digitVal h2) * 60 + (digitVal m1 * 10 + digitVal m2)
      some (if c = '-' then -v else v)
    else none
  | _ => none

def wallOfDigits (d : List Char) : WallDigits :=
  { Y := digitsToNat (d.take 4)
    Mo := digitsToNat ((d.drop 4).take 2)
    D := digitsToNat ((d.drop 6).take 2)
    H := digitsToNat ((d.drop 8).take 2)
    Mi := digitsToNat ((d.drop 10).take 2)
    S := digitsToNat ((d.drop 12).take 2) }

/-! ### `epg-viewer/src/xmltv.js` -/

/-- `xmltvTimeToIso` composed with `Date.parse`: the regex
`^(\d{4})(\d{2})(\d{2})(\d{2})(\d{2})(\d{2})(?:\s*([+\-]\d{4}|Z))?$`, a
missing offset read as UTC, and the ECMAScript ISO parse of the rebuilt
string (calendar-invalid fields give `Invalid Date`, i.e. `none`).
The source returns the canonical ISO string; we return its epoch value. -/
def xmltvTimeToIso (x : Option String) : Option Int :=
  match x with
  | none => none
  | some s =>
    if s = "" then none else
    match take14Digits s.toList with
    | none => none
    | some (d, rest) =>
      let offMin? : Option Int :=
        if rest = [] then some 0
        else scanOffsetTail (rest.dropWhile Char.isWhitespace)
      match offMin? with
      | none => none
      | some offMin =>
        let w := wallOfDigits d
        if validDateTime w offMin then some (wallDigitsToMs w offMin) else none

/-- `isoToXmltvTime`: renders an instant's UTC fields as
`YYYYMMDDhhmmss +0000` (`null` passes through). -/
def isoToXmltvTime (x : Option Int) : Option String :=
  match x with
  | none => none
  | some ms =>
    let w := msToWallDigits ms
    some (pad4 w.Y ++ pad2 w.Mo ++ pad2 w.D ++ pad2 w.H ++ pad2 w.Mi ++ pad2 w.S ++ " +0000")

/-! ### `epg-viewer/server.js` — timestamp post-processing & the time-shift engine -/

/-- The match of `/^(\d{14})(?:\s*(?:[+\-]\d{4}|Z))?$/` used by
`normalizeXmltvOffsetZero`, returning the fourteen captured digit characters. -/
def normMatch (cs : List Char) : Option (List Char) :=
  match take14Digits cs with
  | none => none
  | some (d, rest) =>
    if rest = [] then some d
    else
      match scanOffsetTail (rest.dropWhile Char.isWhitespace) with
      | some _ => some d
      | none => none

/-- `normalizeXmltvOffsetZero`: rewrite a matching timestamp to
`<digits> +0000`; anything else (including falsy input) passes through. -/
def normalizeXmltvOffsetZero (x : Option String) : Option String :=
  match x with
  | none => none
  | some s =>
    if s = "" then some s
    else
      match normMatch s.toList with
      | some d => some (String.mk d ++ " +0000")
      | none => some s

/-- `parseXmltvParts` (the helper inside `formatXmltvWithZone`): matches
`/^(\d{4})(\d{2})(\d{2})(\d{2})(\d{2})(\d{2})\s*([+\-]\d{4}|Z)?$/` — note
the offset group is optional but trailing whitespace alone is accepted here,
unlike in `xmltvTimeToIso` — and computes the signed offset minutes. -/
def parseXmltvParts (x : Option String) : Option (WallDigits × Int) :=
  match x with
  | none => none
  | some s =>
    match take14Digits s.toList with
    | none => none
    | some (d, rest) =>
      match rest.dropWhile Char.isWhitespace with
      | [] => some (wallOfDigits d, 0)
      | r =>
        match scanOffsetTail r with
        | some off => some (wallOfDigits d, off)
        | none => none

/-- `fmtXmltv`: renders wall digits and a signed minute offset as
`YYYYMMDDhhmmss ±HHMM` (the digit fields round-trip through their numeric
values because each has fixed width). -/
def fmtXmltv (w : WallDigits) (offMin : Int) : String :=
  let sign := if 0 ≤ offMin then "+" else "-"
  let a := offMin.natAbs
  pad4 w.Y ++ pad2 w.Mo ++ pad2 w.D ++ pad2 w.H ++ pad2 w.Mi ++ pad2 w.S ++
    " " ++ sign ++ pad2 (a / 60) ++ pad2 (a % 60)

/-- `Math.max(-14*60, Math.min(14*60, x))`. -/
def clamp840 (x : Int) : Int := max (-840) (min 840 x)

/-- Abstraction of Luxon's `DateTime.setZone`: wall digits and offset
minutes of an instant viewed in an IANA zone.  Every theorem below that
exercises `formatXmltvWithZone` does so with `zoneId = none`, so its
statements hold for every oracle. -/
structure ZoneOracle where
  view : String → Int → WallDigits × Int

/-- `formatXmltvWithZone(utcIso, originalXmltv, zoneId, offsetMinutes, shiftMode)`.
`utcIso` (an ISO string in the source) is modelled by its epoch value. -/
def formatXmltvWithZone (zo : ZoneOracle) (utcIso : Option Int) (originalXmltv : Option String)
    (zoneId : Option String) (offsetMinutes : Int) (shiftMode : String) : Option String :=
  let addOff := toInt32 offsetMinutes
  if shiftMode = "offset" then
    if jsTruthy zoneId then
      match utcIso with
      | none =>
        match jsOrNull originalXmltv with
        | some orig =>
          match parseXmltvParts (some orig) with
          | none => some orig
          | some (w, offMin) => some (fmtXmltv w (clamp840 (offMin + addOff)))
        | none => none
      | some ms =>
        let v := zo.view (zoneId.getD "") ms
        some (fmtXmltv v.1 (clamp840 (v.2 + addOff)))
    else
      match jsOrNull originalXmltv with
      | some orig =>
        match parseXmltvParts (some orig) with
        | none => some orig
        | some (w, offMin) => some (fmtXmltv w (clamp840 (offMin + addOff)))
      | none => isoToXmltvTime utcIso
  else
    if jsTruthy zoneId then
      let iso := match utcIso with
        | some ms => some ms
        | none => xmltvTimeToIso (jsOrNull originalXmltv)
      match iso with
      | none => jsOrNull originalXmltv
      | some ms =>
        let v := zo.view (zoneId.getD "") (ms + addOff * 60000)
        some (fmtXmltv v.1 v.2)
    else
      match jsOrNull originalXmltv with
      | some orig =>
        match parseXmltvParts (some orig), xmltvTimeToIso (some orig) with
        | some (_, offMin), some ms =>
          some (fmtXmltv (msToWallDigits (ms + addOff * 60000 + offMin * 60000)) offMin)
        | _, _ => some orig
      | none =>
        match utcIso with
        | some ms => isoToXmltvTime (some (ms + addOff * 60000))
        | none => none

/-! ### `epg-viewer/src/streamXmltv.js` — the streaming parser -/

/-- `norm`: `String(s).trim().toLowerCase()` (ASCII model). -/
def normId (s : String) : String := jsToLower (jsTrim s)

/-- The attributes of one `<programme>` element as captured at `opentag`
(`attrs.x || null` already applied, so `some ""` does not occur in real
event streams but is handled like the source would). -/
structure ProgEl where
  channel : Option String
  start : Option String
  stop : Option String
  title : Option String
  desc : Option String
  category : Option String
  icon : Option String
deriving Repr, DecidableEq

/-- A convenience constructor for a programme element carrying only
channel/start/stop. -/
def progEl (ch st sp : Option String) : ProgEl :=
  { channel := ch, start := st, stop := sp, title := none, desc := none,
    category := none, icon := none }

/-- The record pushed into `schedules` by `pushProgramme`.  `start` / `stop`
are the parsed instants (`startIso` / `stopIso`, epoch ms). -/
structure Programme where
  start : Option Int
  stop : Option Int
  startXmltv : Option String
  stopXmltv : Option String
  title : Option String
  desc : Option String
  category : Option String
  icon : Option String
deriving Repr, DecidableEq

/-- Schedules: `id -> [programmes]`, a string-keyed JS object. -/
abbrev Schedules := List (String × List Programme)

def schedLookup (s : Schedules) (k : String) : Option (List Programme) :=
  List.lookup k s

/-- `schedules[k].push(p)`, creating `schedules[k] = []` first when absent
(a fresh key is enumerated after all existing ones). -/
def schedPush (s : Schedules) (k : String) (p : Programme) : Schedules :=
  match s with
  | [] => [(k, [p])]
  | (k0, l) :: rest =>
    if k0 = k then (k0, l ++ [p]) :: rest else (k0, l) :: schedPush rest k p

structure ParserState where
  schedules : Schedules
  totalProgrammes : Nat
deriving Repr, DecidableEq

/-- The comparator `(a, b) => (a.start < b.start ? -1 : a.start > b.start ? 1 : 0)`
seen through the strict part of a JS `<` between nullable ISO strings:
`null` compares false both ways against everything. -/
def jsLtStart (a b : Option Int) : Bool :=
  match a, b with
  | some x, some y => decide (x < y)
  | _, _ => false

/-- `a` may stay before `b` under the comparator (comparator value ≤ 0). -/
def progLe (a b : Programme) : Bool := ! jsLtStart b.start a.start

/-- `schedules[id].sort(...)` as a stable sort under `progLe`. -/
def sortByStart (l : List Programme) : List Programme :=
  List.insertionSort (fun a b => progLe a b = true) l

def sortSchedules (s : Schedules) : Schedules :=
  List.map (fun kv => (kv.1, sortByStart kv.2)) s

/-- `chNorm` as computed at `opentag`: `ch ? norm(ch) : null`. -/
def chNormOf (ch : Option String) : Option String :=
  match jsOrNull ch with
  | some c => some (normId c)
  | none => none

/-- `include` as computed at `opentag`:
`keepAll ? false : (chNorm && allowedNorm.has(chNorm))` — `chNorm` may be
the empty string (a whitespace-only channel id normalizes to `""`), which
is falsy, so the conjunction short-circuits to exclusion there. -/
def includeFlag (keepAll : Bool) (allowedNorm : List String) (ch : Option String) : Bool :=
  if keepAll then false
  else
    match chNormOf ch with
    | some n => decide (n ≠ "") && allowedNorm.contains n
    | none => false

/-- The window test of `pushProgramme`:
`(isFinite(startMs) && startMs < to && (!isFinite(stopMs) || stopMs > from)) ||
 (isFinite(stopMs) && stopMs > from && (!isFinite(startMs) || startMs < to))`. -/
def overlapsWindow (startIso stopIso : Option Int) (windowFromMs windowToMs : Int) : Bool :=
  (match startIso with
   | some s => decide (s < windowToMs) && (match stopIso with
     | some t => decide (t > windowFromMs)
     | none => true)
   | none => false) ||
  (match stopIso with
   | some t => decide (t > windowFromMs) && (match startIso with
     | some s => decide (s < windowToMs)
     | none => true)
   | none => false)

/-- `pushProgramme(p)` with `include` already resolved. -/
def pushProgramme (noWindow : Bool) (windowFromMs windowToMs : Int)
    (st : ParserState) (p : ProgEl) (inc : Bool) : ParserState :=
  let st1 : ParserState := { st with totalProgrammes := st.totalProgrammes + 1 }
  if !inc then st1
  else
    let startIso := xmltvTimeToIso p.start
    let stopIso := xmltvTimeToIso p.stop
    let overlaps : Bool := overlapsWindow startIso stopIso windowFromMs windowToMs
    if !noWindow && !overlaps then st1
    else
      let key := match p.channel with
        | some c => c
        | none => "null"
      let rec0 : Programme :=
        { start := startIso, stop := stopIso,
          startXmltv := jsOrNull p.start, stopXmltv := jsOrNull p.stop,
          title := jsOrNull p.title, desc := jsOrNull p.desc,
          category := jsOrNull p.category, icon := jsOrNull p.icon }
      { st1 with schedules := schedPush st1.schedules key rec0 }

/-- The `closetag('programme')` loop: push each element, stopping after the
limit (`limitProgrammes`, `none` = `Infinity`) has been reached. -/
def runProgEls (keepAll : Bool) (allowedNorm : List String) (limit : Option Nat)
    (noWindow : Bool) (windowFromMs windowToMs : Int) :
    List ProgEl → ParserState → ParserState
  | [], st => st
  | p :: rest, st =>
    let st2 := pushProgramme noWindow windowFromMs windowToMs st p
      (includeFlag keepAll allowedNorm p.channel)
    if (match limit with | some L => decide (st2.totalProgrammes ≥ L) | none => false)
    then st2
    else runProgEls keepAll allowedNorm limit noWindow windowFromMs windowToMs rest st2

/-- `streamParseXmltv(source, allowedIds, opts)` restricted to its programme
events (`els` lists the `<programme>` elements in document order; the
window bounds arrive already resolved from `opts` or the defaults).
`allowedIds = none` models a `null` argument, `some l` a `Set` with the
listed members. -/
def streamParseXmltv (allowedIds : Option (List String)) (limit : Option Nat)
    (noWindow : Bool) (windowFromMs windowToMs : Int) (els : List ProgEl) : ParserState :=
  let keepAll := match allowedIds with
    | none => true
    | some l => l.isEmpty
  let allowedNorm := if keepAll then [] else (allowedIds.getD []).map normId
  let st := runProgEls keepAll allowedNorm limit noWindow windowFromMs windowToMs els
    { schedules := [], totalProgrammes := 0 }
  { st with schedules := sortSchedules st.schedules }

/-! ### `epg-viewer/server.js` — per-programme export timestamps -/

/-- A persisted channel mapping record (only the fields `setMapping`
stores; see `epg-viewer/src/store.js`). -/
structure MappingRec where
  sourceId : Option String
  epgChannelId : Option String
  offsetMinutes : Option Int
  zoneId : Option String
  shiftMode : Option String
deriving Repr, DecidableEq

def emptyMapping : MappingRec :=
  { sourceId := none, epgChannelId := none, offsetMinutes := none,
    zoneId := none, shiftMode := none }

/-- `Number.isFinite(map.offsetMinutes) ? (map.offsetMinutes|0) : 0`. -/
def offForId (m : MappingRec) : Int :=
  match m.offsetMinutes with
  | some v => toInt32 v
  | none => 0

/-- `map.shiftMode || 'wall'`. -/
def shiftModeOf (m : MappingRec) : String :=
  match jsOrNull m.shiftMode with
  | some s => s
  | none => "wall"

/-- `mustRewrite = offForId !== 0 || (!!map.zoneId && (map.shiftMode || 'wall') === 'wall')`. -/
def mustRewrite (m : MappingRec) : Bool :=
  decide (offForId m ≠ 0) || (jsTruthy m.zoneId && decide (shiftModeOf m = "wall"))

/-- The per-programme `start` value every export writer computes first:
`start = (!mustRewrite && p.startXmltv) ? p.startXmltv :
formatXmltvWithZone(p.start, p.startXmltv, map.zoneId, offForId, shiftMode)`.
All three writers (the inline `/epg.xml.gz` route, `/epg.xml` and
`prewarmExportJob`) share this expression verbatim. -/
def rawStartAttr (zo : ZoneOracle) (m : MappingRec) (p : Programme) : Option String :=
  if !mustRewrite m && jsTruthy p.startXmltv then p.startXmltv
  else formatXmltvWithZone zo p.start p.startXmltv m.zoneId (offForId m) (shiftModeOf m)

/-- The shared `stop` expression of the three writers. -/
def rawStopAttr (zo : ZoneOracle) (m : MappingRec) (p : Programme) : Option String :=
  if !mustRewrite m && jsTruthy p.stopXmltv then p.stopXmltv
  else formatXmltvWithZone zo p.stop p.stopXmltv m.zoneId (offForId m) (shiftModeOf m)

/-- The `start` attribute emitted by `prewarmExportJob` (server.js:369) and
the `/epg.xml` route (server.js:1233): those two writers follow the shared
expression with `if (FORCE_ZERO_OFFSET) start = normalizeXmltvOffsetZero(start)`
(and the constant is `true`), then render `start || ''` inside the
attribute. -/
def exportedStartAttr (zo : ZoneOracle) (m : MappingRec) (p : Programme) : String :=
  ((normalizeXmltvOffsetZero (rawStartAttr zo m p)).getD "")

/-- The `stop` attribute of the same two writers (normalized only when
truthy — `if (stop) stop = normalizeXmltvOffsetZero(stop)` — and emitted
only when truthy). -/
def exportedStopAttr (zo : ZoneOracle) (m : MappingRec) (p : Programme) : Option String :=
  let raw := rawStopAttr zo m p
  let n := if jsTruthy raw then normalizeXmltvOffsetZero raw else raw
  if jsTruthy n then n else none

/-- The `start` attribute emitted by the inline `/epg.xml.gz` writer
(server.js:1061-1065): this writer renders `start || ''` straight from the
shared expression and never applies `normalizeXmltvOffsetZero` —
`FORCE_ZERO_OFFSET` is not consulted on this path. -/
def gzStartAttr (zo : ZoneOracle) (m : MappingRec) (p : Programme) : String :=
  ((rawStartAttr zo m p).getD "")

/-- The `stop` attribute of the inline `/epg.xml.gz` writer (emitted only
when truthy, with no normalization). -/
def gzStopAttr (zo : ZoneOracle) (m : MappingRec) (p : Programme) : Option String :=
  let raw := rawStopAttr zo m p
  if jsTruthy raw then raw else none

/-- `const list = schedules[id] || []` — the programme sequence a rendered
export emits for one channel, in order. -/
def exportChannelList (s : Schedules) (id : String) : List Programme :=
  (schedLookup s id).getD []

/-! ### `src/mirror.js` — mirror store with rotation and snapshots

The mirror directory is modelled per URL: `key` stands for the sha1 hex of
the URL (dot-free, so the `startsWith(key + '.')` filter and the snapshot
regex behave as in the source); files are name/content/mtime triples. -/

structure FsFile where
  name : String
  content : String
  mtimeMs : Int
deriving Repr, DecidableEq

abbrev Fs := List FsFile

def fsExists (fs : Fs) (n : String) : Bool := List.any fs (fun f => f.name = n)

def fsGet (fs : Fs) (n : String) : Option FsFile := List.find? (fun f => f.name = n) fs

/-- `fs.renameSync` (content and mtime travel with the file). -/
def fsRename (fs : Fs) (src dst : String) : Fs :=
  List.map (fun f => if f.name = src then { f with name := dst } else f) fs

/-- Writing (or replacing) a file; the `tmp` + `renameSync` pair of the
source collapses to one atomic write here. -/
def fsWrite (fs : Fs) (n c : String) (mt : Int) : Fs :=
  List.filter (fun f => f.name ≠ n) fs ++ [{ name := n, content := c, mtimeMs := mt }]

def fsUnlink (fs : Fs) (n : String) : Fs := List.filter (fun f => f.name ≠ n) fs

/-- `tsStamp`: `YYYYMMDDhhmmss` of the current UTC instant. -/
def tsStamp (nowMs : Int) : String :=
  let w := msToWallDigits nowMs
  pad4 w.Y ++ pad2 w.Mo ++ pad2 w.D ++ pad2 w.H ++ pad2 w.Mi ++ pad2 w.S

/-- The match of `^<key>\.(\d{14})\.(xmltv\.gz|xml)$` on a file name. -/
def snapStampOf (key name : String) : Option (List Char) :=
  let pre := key ++ "."
  if strStartsWith name pre then
    let rest := name.toList.drop pre.length
    let d := rest.take 14
    let tl := rest.drop 14
    if d.length = 14 ∧ d.all Char.isDigit ∧
        (tl = '.' :: "xmltv.gz".toList ∨ tl = '.' :: "xml".toList)
    then some d else none
  else none

/-- `new Date(<stamp as ISO Z>).getTime()`: `none` models `NaN` (an invalid
fourteen-digit date). -/
def stampSavedAt (d : List Char) : Option Int :=
  let w := wallOfDigits d
  if validDateTime w 0 then some (wallDigitsToMs w 0) else none

structure SnapEntry where
  path : String
  savedAt : Option Int
  isGz : Bool
deriving Repr, DecidableEq

/-- Comparator `(a, b) => b.savedAt - a.savedAt` as "a may stay before b"
(value ≤ 0; a `NaN` difference counts as 0). -/
def snapLe (a b : SnapEntry) : Bool :=
  match a.savedAt, b.savedAt with
  | some x, some y => decide (y ≤ x)
  | _, _ => true

/-- `listSnapshots(url)`: every directory entry starting with `<key>.` and
ending in `.xmltv.gz` or `.xml` (note that this includes the current mirror
file `<key>.xmltv.gz` / `<key>.xml` itself, whose name does not match the
stamp pattern and therefore gets its mtime as `savedAt`), sorted
newest-first. -/
def listSnapshots (key : String) (fs : Fs) : List SnapEntry :=
  let files := List.filter
    (fun f => strStartsWith f.name (key ++ ".") &&
      (strEndsWith f.name ".xmltv.gz" || strEndsWith f.name ".xml")) fs
  let out := List.map (fun f =>
    let savedAt := match snapStampOf key f.name with
      | some d => stampSavedAt d
      | none => some f.mtimeMs
    { path := f.name, savedAt := savedAt, isGz := strEndsWith f.name ".gz" : SnapEntry }) files
  List.insertionSort (fun a b => snapLe a b = true) out

def pruneLoop (cutoff : Int) (keepMax : Nat) : List SnapEntry → Nat → Fs → Fs
  | [], _, fs => fs
  | s :: rest, kept, fs =>
    let kept1 := kept + 1
    let del := (match s.savedAt with
      | some t => decide (t < cutoff)
      | none => false) || decide (kept1 > keepMax)
    pruneLoop cutoff keepMax rest kept1 (if del then fsUnlink fs s.path else fs)

/-- `pruneSnapshots(url, retentionDays = 21, keepMax = 40)`. -/
def pruneSnapshots (key : String) (nowMs : Int) (fs : Fs)
    (retentionDays : Int) (keepMax : Nat) : Fs :=
  let snaps := listSnapshots key fs
  let cutoff := nowMs - max 1 (toInt32 retentionDays) * 86400000
  pruneLoop cutoff keepMax snaps 0 fs

structure NetResponse where
  status : Nat
  etag : Option String
  lastModified : Option String
  contentType : String
  contentEncoding : String
  body : String
deriving Repr, DecidableEq

def resOk (r : NetResponse) : Bool := decide (200 ≤ r.status) && decide (r.status < 300)

/-- The parsed content of `<key>.json`. -/
structure MetaRec where
  etag : Option String
  lastModified : Option String
  isGz : Bool
deriving Repr, DecidableEq

structure MirrorResult where
  path : String
  isGz : Bool
  etag : Option String
  lastModified : Option String
  changed : Bool
deriving Repr, DecidableEq

def extOf (isGz : Bool) : String := if isGz then ".xmltv.gz" else ".xml"

def extName (isGz : Bool) : String := if isGz then "xmltv.gz" else "xml"

/-- `forceDownload(url, paths, res)`: decide gzip-ness from url/headers,
rotate an existing current file to `<key>.<stamp>.<ext>`, stream the body to
the target, write metadata, prune.  `nowMs` is the rotation instant,
`mtimeNew` the mtime of the freshly written current file. -/
def forceDownload (key url : String) (res : NetResponse) (nowMs mtimeNew : Int) (fs : Fs) :
    MirrorResult × Fs × Option MetaRec :=
  let isGz := strEndsWith url ".gz" || strIncludes res.contentType "gzip" ||
    strIncludes res.contentEncoding "gzip"
  let target := key ++ extOf isGz
  let fs1 := if fsExists fs target
    then fsRename fs target (key ++ "." ++ tsStamp nowMs ++ "." ++ extName isGz)
    else fs
  let fs2 := fsWrite fs1 target res.body mtimeNew
  let meta : MetaRec := { etag := res.etag, lastModified := res.lastModified, isGz := isGz }
  let fs3 := pruneSnapshots key nowMs fs2 21 40
  ({ path := target, isGz := isGz, etag := res.etag, lastModified := res.lastModified,
     changed := true }, fs3, some meta)

/-- `mirrorFetch(url)`.  `net b` is the upstream's response to a GET, where
`b` says whether the request carried the stored validators
(`If-None-Match` / `If-Modified-Since`); the 5xx retry and the
missing-file refetch are issued without them. -/
def mirrorFetch (net : Bool → NetResponse) (key url : String) (fs : Fs)
    (meta : Option MetaRec) (nowMs mtimeNew : Int) :
    Except String (MirrorResult × Fs × Option MetaRec) :=
  let cond := match meta with
    | some m => m.etag.isSome || m.lastModified.isSome
    | none => false
  let r1 := net cond
  let res := if !resOk r1 && decide (r1.status ≥ 500) then net false else r1
  if res.status = 304 then
    let isGz := match meta with
      | some m => m.isGz
      | none => strEndsWith url ".gz"
    let file := key ++ extOf isGz
    if !fsExists fs file then
      let fresh := net false
      if !resOk fresh then Except.error "mirror fetch fresh failed"
      else Except.ok (forceDownload key url fresh nowMs mtimeNew fs)
    else
      let metaEtag := match meta with
        | some m => m.etag
        | none => none
      let metaLm := match meta with
        | some m => m.lastModified
        | none => none
      let unchanged : MirrorResult :=
        { path := file, isGz := isGz, etag := metaEtag, lastModified := metaLm,
          changed := false }
      Except.ok (unchanged, fs, meta)
  else if !resOk res then Except.error "mirror fetch failed"
  else Except.ok (forceDownload key url res nowMs mtimeNew fs)

/-! ### `epg-viewer/server.js` — `backfillFromHistory` -/

/-- One merge group as `backfillFromHistory` sees it: its `allowed` set
(`none` models `null`; `some []` a present-but-empty `Set`, which is truthy
in JS), its id map (normalized EPG id → playlist id) and the programme
element streams of its snapshots in `listSnapshots` order. -/
structure BGroup where
  allowed : Option (List String)
  idMap : List (String × String)
  snaps : List (List ProgEl)

abbrev Keys := List (String × List Int)

def keysGet (ks : Keys) (id : String) : List Int := (List.lookup id ks).getD []

def keysSet (ks : Keys) (id : String) (v : List Int) : Keys :=
  match ks with
  | [] => [(id, v)]
  | (k, w) :: rest => if k = id then (k, v) :: rest else (k, w) :: keysSet rest id v

/-- `if (!schedules[id]) schedules[id] = []`. -/
def schedEnsure (s : Schedules) (k : String) : Schedules :=
  if (schedLookup s k).isSome then s else s ++ [(k, [])]

/-- Replace the list stored under an existing key. -/
def schedSet (s : Schedules) (k : String) (v : List Programme) : Schedules :=
  match s with
  | [] => [(k, v)]
  | (k0, l) :: rest => if k0 = k then (k0, v) :: rest else (k0, l) :: schedSet rest k v

/-- The de-dup insertion loop of `backfillFromHistory`:
`if (p.start && set.has(p.start)) continue; schedules[id].push(p);
if (p.start) set.add(p.start);`. -/
def insertDedup : List Int → List Programme → List Programme → List Int × List Programme
  | set0, cur, [] => (set0, cur)
  | set0, cur, p :: rest =>
    match p.start with
    | some s =>
      if set0.contains s then insertDedup set0 cur rest
      else insertDedup (set0 ++ [s]) (cur ++ [p]) rest
    | none => insertDedup set0 (cur ++ [p]) rest

/-- Merge one parsed snapshot (`raw`) into the accumulating schedules. -/
def mergeRaw (g : BGroup) (st : Schedules × Keys) (raw : Schedules) : Schedules × Keys :=
  match g.allowed with
  | some _ =>
    raw.foldl (fun acc kv =>
      match List.lookup (normId kv.1) g.idMap with
      | none => acc
      | some plId =>
        let sched1 := schedEnsure acc.1 plId
        let r := insertDedup (keysGet acc.2 plId) ((schedLookup sched1 plId).getD []) kv.2
        (schedSet sched1 plId r.2, keysSet acc.2 plId r.1)) st
  | none =>
    raw.foldl (fun acc kv =>
      let sched1 := schedEnsure acc.1 kv.1
      let r := insertDedup (keysGet acc.2 kv.1) ((schedLookup sched1 kv.1).getD []) kv.2
      (schedSet sched1 kv.1 r.2, keysSet acc.2 kv.1 r.1)) st

def backfillGroup (windowFromMs pastTo : Int) (g : BGroup) (st : Schedules × Keys) :
    Schedules × Keys :=
  g.snaps.foldl (fun acc snap =>
    let raw := (streamParseXmltv g.allowed none false windowFromMs pastTo snap).schedules
    mergeRaw g acc raw) st

/-- `backfillFromHistory(groups, windowFromMs, windowToMs, schedules, mappings)`
(the `mappings` argument is unused by the source body).  Every snapshot of
every group is parsed and merged — the loop has no early exit — and the
result is re-sorted per channel. -/
def backfillFromHistory (groups : List BGroup) (windowFromMs windowToMs : Int)
    (schedules : Schedules) (nowMs : Int) : Schedules :=
  let pastTo := min windowToMs nowMs
  if !(decide (windowFromMs < pastTo)) then schedules
  else
    let keys0 : Keys := schedules.map (fun kv => (kv.1, kv.2.filterMap (fun p => p.start)))
    let r := groups.foldl (fun acc g => backfillGroup windowFromMs pastTo g acc)
      (schedules, keys0)
    sortSchedules r.1

/-! ### `epg-viewer/server.js` — the `/api/export/prewarm` handler -/

/-- The job object literal built by `app.post('/api/export/prewarm')`.
`recId` models JS object identity: each request constructs a fresh object. -/
structure PrewarmJob where
  status : String
  percent : Nat
  message : String
  exportUrl : String
  recId : Nat
deriving Repr, DecidableEq

abbrev Jobs := List (String × PrewarmJob)

def jobsSet (js : Jobs) (k : String) (v : PrewarmJob) : Jobs :=
  match js with
  | [] => [(k, v)]
  | (k0, w) :: rest => if k0 = k then (k0, v) :: rest else (k0, w) :: jobsSet rest k v

/-- The synchronous part of the prewarm handler: build a fresh job record,
register it under the fresh random `tempKey`, kick off `prewarmExportJob`
unconditionally (the returned flag), and respond with the temp key.
Existing jobs are never consulted. -/
def prewarmRequest (jobs : Jobs) (tempKey : String) (freshId : Nat) (exportUrl : String) :
    Jobs × String × Bool :=
  let job : PrewarmJob :=
    { status := "starting", percent := 0, message := "Queued", exportUrl := exportUrl,
      recId := freshId }
  (jobsSet jobs tempKey job, tempKey, true)

/-- The only build-suppression check inside `prewarmExportJob`: the job
short-circuits to `done` exactly when `cache/exports/<cacheKey>.xml.gz`
already exists at the moment of its `fs.existsSync` call. -/
def prewarmJobShortCircuits (exportFiles : List String) (cacheKey : String) : Bool :=
  exportFiles.contains (cacheKey ++ ".xml.gz")

/-! ### `epg-viewer/src/store.js` — `setMapping` -/

/-- A JS number argument: `NaN`, the infinities, or a finite value. -/
inductive JsNum where
  | nan
  | inf
  | negInf
  | fin (q : Rat)
deriving Repr, DecidableEq

/-- Truncation toward zero, the first half of JS `ToInt32`. -/
def ratTrunc (q : Rat) : Int := if 0 ≤ q then ⌊q⌋ else ⌈q⌉

/-- The incoming `mapping` object (unknown extra fields are irrelevant:
`setMapping` copies only these five).  `zoneId = none` covers both an
absent field and a non-string value (the `typeof` guard). -/
structure MappingInput where
  sourceId : Option String
  epgChannelId : Option String
  offsetMinutes : Option JsNum
  zoneId : Option String
  shiftMode : Option String
deriving Repr, DecidableEq

abbrev Mappings := List (String × MappingRec)

def mapErase (m : Mappings) (k : String) : Mappings :=
  List.filter (fun kv => kv.1 ≠ k) m

def mapSet (m : Mappings) (k : String) (v : MappingRec) : Mappings :=
  match m with
  | [] => [(k, v)]
  | (k0, w) :: rest => if k0 = k then (k0, v) :: rest else (k0, w) :: mapSet rest k v

/-- The `out` object built by `setMapping` ("Only keep known fields"):
`sourceId` / `epgChannelId` when truthy, `offsetMinutes|0` when
`Number.isFinite`, `zoneId.trim()` when a non-blank string, `shiftMode`
when literally `'wall'` or `'offset'`. -/
def storedMappingOf (inp : MappingInput) : MappingRec :=
  { sourceId := jsOrNull inp.sourceId
    epgChannelId := jsOrNull inp.epgChannelId
    offsetMinutes := match inp.offsetMinutes with
      | some (JsNum.fin q) => some (toInt32 (ratTrunc q))
      | _ => none
    zoneId := match inp.zoneId with
      | some z => if jsTrim z = "" then none else some (jsTrim z)
      | none => none
    shiftMode := if inp.shiftMode = some "wall" ∨ inp.shiftMode = some "offset"
      then inp.shiftMode else none }

/-- `setMapping(playlistId, mapping)`: a falsy `mapping` deletes the entry;
otherwise only the known fields survive, each behind its own guard. -/
def setMapping (m : Mappings) (playlistId : String) (mapping : Option MappingInput) :
    Mappings :=
  match mapping with
  | none => mapErase m playlistId
  | some inp => mapSet m playlistId (storedMappingOf inp)

/-! ## Generic association-list facts used by several proofs -/

theorem beq_false_of_ne_str {a b : String} (h : ¬ a = b) : (a == b) = false :=
  beq_false_of_ne h

theorem lookup_keysSet_self (m : Keys) (k : String) (v : List Int) :
    List.lookup k (keysSet m k v) = some v := by
  induction m with
  | nil => simp [keysSet, List.lookup]
  | cons kv rest ih =>
    obtain ⟨k0, w⟩ := kv
    by_cases h : k0 = k
    · subst h
      simp [keysSet, List.lookup]
    · simp [keysSet, h, List.lookup, beq_false_of_ne_str (fun e => h e.symm), ih]

theorem lookup_mapSet_self (m : Mappings) (k : String) (v : MappingRec) :
    List.lookup k (mapSet m k v) = some v := by
  induction m with
  | nil => simp [mapSet, List.lookup]
  | cons kv rest ih =>
    obtain ⟨k0, w⟩ := kv
    by_cases h : k0 = k
    · subst h
      simp [mapSet, List.lookup]
    · simp [mapSet, h, List.lookup, beq_false_of_ne_str (fun e => h e.symm), ih]

theorem lookup_mapSet_ne (m : Mappings) (k k2 : String) (v : MappingRec) (h : k2 ≠ k) :
    List.lookup k2 (mapSet m k v) = List.lookup k2 m := by
  induction m with
  | nil => simp [mapSet, List.lookup, beq_false_of_ne_str h]
  | cons kv rest ih =>
    obtain ⟨k0, w⟩ := kv
    by_cases hk : k0 = k
    · subst hk
      simp [mapSet, List.lookup, beq_false_of_ne_str h]
    · simp [mapSet, hk, List.lookup, ih]

theorem lookup_mapErase_self (m : Mappings) (k : String) :
    List.lookup k (mapErase m k) = none := by
  induction m with
  | nil => simp [mapErase, List.lookup]
  | cons kv rest ih =>
    obtain ⟨k0, w⟩ := kv
    by_cases h : k0 = k
    · subst h
      simpa [mapErase, List.filter_cons, List.lookup] using ih
    · simpa [mapErase, List.filter_cons, h, List.lookup,
        beq_false_of_ne_str (fun e => h e.symm)] using ih

theorem lookup_mapErase_ne (m : Mappings) (k k2 : String) (h : k2 ≠ k) :
    List.lookup k2 (mapErase m k) = List.lookup k2 m := by
  induction m with
  | nil => simp [mapErase]
  | cons kv rest ih =>
    obtain ⟨k0, w⟩ := kv
    by_cases hk : k0 = k
    · subst hk
      simpa [mapErase, List.filter_cons, List.lookup, beq_false_of_ne_str h] using ih
    · by_cases h2 : k0 = k2
      · subst h2
        simp [mapErase, List.filter_cons, hk, List.lookup]
      · simpa [mapErase, List.filter_cons, hk, List.lookup,
          beq_false_of_ne_str (fun e => h2 e.symm)] using ih

theorem lookup_jobsSet_self (m : Jobs) (k : String) (v : PrewarmJob) :
    List.lookup k (jobsSet m k v) = some v := by
  induction m with
  | nil => simp [jobsSet, List.lookup]
  | cons kv rest ih =>
    obtain ⟨k0, w⟩ := kv
    by_cases h : k0 = k
    · subst h
      simp [jobsSet, List.lookup]
    · simp [jobsSet, h, List.lookup, beq_false_of_ne_str (fun e => h e.symm), ih]

theorem lookup_jobsSet_ne (m : Jobs) (k k2 : String) (v : PrewarmJob) (h : k2 ≠ k) :
    List.lookup k2 (jobsSet m k v) = List.lookup k2 m := by
  induction m with
  | nil => simp [jobsSet, List.lookup, beq_false_of_ne_str h]
  | cons kv rest ih =>
    obtain ⟨k0, w⟩ := kv
    by_cases hk : k0 = k
    · subst hk
      simp [jobsSet, List.lookup, beq_false_of_ne_str h]
    · simp [jobsSet, hk, List.lookup, ih]

/-- JS `ToInt32` always lands in the signed 32-bit range. -/
theorem toInt32_range (n : Int) : -2147483648 ≤ toInt32 n ∧ toInt32 n < 2147483648 := by
  unfold toInt32
  have h1 : 0 ≤ n % 4294967296 := Int.emod_nonneg n (by norm_num)
  have h2 : n % 4294967296 < 4294967296 := Int.emod_lt_of_pos n (by norm_num)
  split <;> omega

/-! ## Shared concrete inputs -/

/-- A zone oracle is irrelevant whenever `zoneId` is `none`; this trivial one
closes the parameter in concrete statements. -/
def zoTriv : ZoneOracle :=
  ⟨fun _ _ => ({ Y := 0, Mo := 0, D := 0, H := 0, Mi := 0, S := 0 }, 0)⟩

/-- A well-formed programme element: 12:00–13:00 UTC on 2024-06-10. -/
def elGood : ProgEl :=
  progEl (some "bbc1") (some "20240610120000 +0000") (some "20240610130000 +0000")

/-- A programme element whose `start` does not parse but whose `stop` does. -/
def elBadStart : ProgEl :=
  progEl (some "bbc1") (some "garbage") (some "20240610130000 +0000")

/-- A programme element with `stop` one hour before `start`. -/
def elReversed : ProgEl :=
  progEl (some "bbc1") (some "20240610130000 +0000") (some "20240610120000 +0000")

/-! ## C1 -/

/-- C1: the claim fails on the code (`code_bug`).  With `allowedIds` absent
(`null`) or empty, `streamParseXmltv` emits no programme whatsoever — the
`opentag` handler computes `include = keepAll ? false : …`, so the
`keepAll` case hard-wires `include` to `false` — even under `noWindow`;
the very same programme is emitted once its channel id is listed.  The spec
("if absent/empty, all channels are accepted") and the dead
`g.allowed = null` merge branches of `server.js` say the opposite. -/
theorem C1_allowedIds_absent_emits_nothing :
    (streamParseXmltv none none true 0 0 [elGood]).schedules = [] ∧
    (streamParseXmltv none none true 0 0 [elGood]).totalProgrammes = 1 ∧
    (streamParseXmltv (some []) none true 0 0 [elGood]).schedules = [] ∧
    ((streamParseXmltv (some ["bbc1"]) none true 0 0 [elGood]).schedules.map
      (fun kv => (kv.1, kv.2.map Programme.startXmltv))) =
      [("bbc1", [some "20240610120000 +0000"])] := by
  decide

/-! ## C9 -/

def c9job1 : PrewarmJob :=
  { status := "starting", percent := 0, message := "Queued",
    exportUrl := "/epg.xml.gz?pastDays=7&futureDays=3", recId := 1 }

def c9job2 : PrewarmJob :=
  { status := "starting", percent := 0, message := "Queued",
    exportUrl := "/epg.xml.gz?pastDays=7&futureDays=3", recId := 2 }

/-- C9 counterexample: two prewarm requests with identical parameters (hence
identical eventual fingerprints).  Each call registers a *fresh* job record
under a fresh random temp key and unconditionally starts `prewarmExportJob`
(the `true` flags); the second caller's record is a different object, not
the first job; and with no artifact on disk at the time of either job's
`fs.existsSync` check (`prewarmJobShortCircuits … = false`) both builds
proceed, so duplicate builds are not prevented. -/
theorem C9_counterexample :
    prewarmRequest [] "PRE_aaa111" 1 "/epg.xml.gz?pastDays=7&futureDays=3" =
      ([("PRE_aaa111", c9job1)], "PRE_aaa111", true) ∧
    prewarmRequest [("PRE_aaa111", c9job1)] "PRE_bbb222" 2
        "/epg.xml.gz?pastDays=7&futureDays=3" =
      ([("PRE_aaa111", c9job1), ("PRE_bbb222", c9job2)], "PRE_bbb222", true) ∧
    c9job2 ≠ c9job1 ∧
    prewarmJobShortCircuits [] "EPG_abc" = false := by
  decide

/-- C9 amended: every prewarm call unconditionally starts the export job and
registers a fresh job record (with this call's identity) under its own fresh
temp key, leaving every other key's record untouched — callers never attach
to an existing job; build deduplication happens only through the on-disk
artifact check `prewarmJobShortCircuits`, which fires exactly when
`<cacheKey>.xml.gz` is already present. -/
theorem C9_amended (jobs : Jobs) (tempKey exportUrl : String) (freshId : Nat)
    (k : String) (files : List String) (cacheKey : String) (hk : k ≠ tempKey) :
    (prewarmRequest jobs tempKey freshId exportUrl).2.2 = true ∧
    List.lookup tempKey (prewarmRequest jobs tempKey freshId exportUrl).1 =
      some { status := "starting", percent := 0, message := "Queued",
             exportUrl := exportUrl, recId := freshId } ∧
    List.lookup k (prewarmRequest jobs tempKey freshId exportUrl).1 = List.lookup k jobs ∧
    (prewarmJobShortCircuits files cacheKey = true ↔ (cacheKey ++ ".xml.gz") ∈ files) := by
  refine ⟨rfl, ?_, ?_, ?_⟩
  · exact lookup_jobsSet_self jobs tempKey _
  · exact lookup_jobsSet_ne jobs tempKey k _ hk
  · simp [prewarmJobShortCircuits]

/-- Witness for `C9_amended` at a concrete second request. -/
theorem C9_amended_witness :
    (prewarmRequest [("PRE_aaa111", c9job1)] "PRE_bbb222" 2 "/u").2.2 = true ∧
    List.lookup "PRE_bbb222"
        (prewarmRequest [("PRE_aaa111", c9job1)] "PRE_bbb222" 2 "/u").1 =
      some { status := "starting", percent := 0, message := "Queued",
             exportUrl := "/u", recId := 2 } ∧
    List.lookup "PRE_aaa111"
        (prewarmRequest [("PRE_aaa111", c9job1)] "PRE_bbb222" 2 "/u").1 =
      List.lookup "PRE_aaa111" [("PRE_aaa111", c9job1)] ∧
    (prewarmJobShortCircuits ["EPG_k.xml.gz"] "EPG_k" = true ↔
      ("EPG_k" ++ ".xml.gz") ∈ ["EPG_k.xml.gz"]) :=
  C9_amended [("PRE_aaa111", c9job1)] "PRE_bbb222" "/u" 2 "PRE_aaa111"
    ["EPG_k.xml.gz"] "EPG_k" (by decide)

/-! ## C10 -/

/-- C10: confirmed.  A falsy mapping argument deletes the entry; a present
one stores exactly the record `storedMappingOf inp`, whose fields obey the
claim: `shiftMode` is kept only when it is literally `wall` or `offset`;
`offsetMinutes` is kept only for a finite numeric input and is its
truncation to a signed 32-bit integer (hence always within
`[-2^31, 2^31)`); `zoneId` is kept only for a string with non-blank trim
and is stored trimmed; other keys of the map are never touched.  (The
stored record has no fields besides the five of `MappingRec` by
construction.) -/
theorem C10_setMapping_fields (m : Mappings) (pid k2 : String) (inp : MappingInput)
    (k : Int) (z : String) (q : Rat)
    (hk2 : k2 ≠ pid)
    (hq : inp.offsetMinutes = some (JsNum.fin q))
    (hofs : (storedMappingOf inp).offsetMinutes = some k)
    (hz : (storedMappingOf inp).zoneId = some z) :
    List.lookup pid (setMapping m pid none) = none ∧
    List.lookup k2 (setMapping m pid none) = List.lookup k2 m ∧
    List.lookup pid (setMapping m pid (some inp)) = some (storedMappingOf inp) ∧
    List.lookup k2 (setMapping m pid (some inp)) = List.lookup k2 m ∧
    ((storedMappingOf inp).shiftMode = none ∨ (storedMappingOf inp).shiftMode = some "wall" ∨
      (storedMappingOf inp).shiftMode = some "offset") ∧
    k = toInt32 (ratTrunc q) ∧
    (-2147483648 ≤ k ∧ k < 2147483648) ∧
    (storedMappingOf inp).sourceId = jsOrNull inp.sourceId ∧
    (storedMappingOf inp).epgChannelId = jsOrNull inp.epgChannelId ∧
    (z ≠ "" ∧ (match inp.zoneId with
      | some z0 => z = jsTrim z0
      | none => False)) := by
  have hk : k = toInt32 (ratTrunc q) := by
    simp [storedMappingOf, hq] at hofs
    exact hofs.symm
  refine ⟨lookup_mapErase_self m pid, lookup_mapErase_ne m pid k2 hk2, ?_, ?_, ?_, hk, ?_, ?_, ?_, ?_⟩
  · exact lookup_mapSet_self m pid _
  · exact lookup_mapSet_ne m pid k2 _ hk2
  · by_cases hs : inp.shiftMode = some "wall" ∨ inp.shiftMode = some "offset"
    · rcases hs with hs | hs
      · exact Or.inr (Or.inl (by simp [storedMappingOf, hs]))
      · exact Or.inr (Or.inr (by simp [storedMappingOf, hs]))
    · exact Or.inl (by simp [storedMappingOf, hs])
  · subst hk
    exact toInt32_range (ratTrunc q)
  · rfl
  · rfl
  · cases hzi : inp.zoneId with
    | none => simp [storedMappingOf, hzi] at hz
    | some z0 =>
      by_cases ht : jsTrim z0 = ""
      · simp [storedMappingOf, hzi, ht] at hz
      · simp [storedMappingOf, hzi, ht] at hz
        subst hz
        exact ⟨ht, rfl⟩

def c10input : MappingInput :=
  { sourceId := some "src_a1b2c3", epgChannelId := some "bbc1",
    offsetMinutes := some (JsNum.fin (-7/2)), zoneId := some "  Europe/London ",
    shiftMode := some "offset" }

/-- Witness for `C10_setMapping_fields` at a concrete upsert. -/
theorem C10_setMapping_fields_witness :
    List.lookup "BBC1" (setMapping [] "BBC1" none) = none ∧
    List.lookup "OTHER" (setMapping [] "BBC1" none) = List.lookup "OTHER" [] ∧
    List.lookup "BBC1" (setMapping [] "BBC1" (some c10input)) = some (storedMappingOf c10input) ∧
    List.lookup "OTHER" (setMapping [] "BBC1" (some c10input)) = List.lookup "OTHER" [] ∧
    ((storedMappingOf c10input).shiftMode = none ∨
      (storedMappingOf c10input).shiftMode = some "wall" ∨
      (storedMappingOf c10input).shiftMode = some "offset") ∧
    (-3 : Int) = toInt32 (ratTrunc (-7/2)) ∧
    (-2147483648 ≤ (-3 : Int) ∧ (-3 : Int) < 2147483648) ∧
    (storedMappingOf c10input).sourceId = jsOrNull c10input.sourceId ∧
    (storedMappingOf c10input).epgChannelId = jsOrNull c10input.epgChannelId ∧
    ("Europe/London" ≠ "" ∧ (match c10input.zoneId with
      | some z0 => "Europe/London" = jsTrim z0
      | none => False)) :=
  C10_setMapping_fields [] "BBC1" "OTHER" c10input (-3) "Europe/London" (-7/2)
    (by decide) rfl
    (by show some (toInt32 (ratTrunc (-7/2))) = some (-3)
        have hc : ratTrunc ((-7 : Rat)/2) = -3 := by
          norm_num [ratTrunc, Int.ceil_eq_iff]
        rw [hc]
        decide)
    (by decide)

/-! ## C2 -/

/-- The record `pushProgramme` builds from `elBadStart`: no parsed start. -/
def c2progBad : Programme :=
  { start := none, stop := some 1718024400000, startXmltv := some "garbage",
    stopXmltv := some "20240610130000 +0000", title := none, desc := none,
    category := none, icon := none }

/-- The record built from `elReversed`: `stop` before `start`. -/
def c2progRev : Programme :=
  { start := some 1718024400000, stop := some 1718020800000,
    startXmltv := some "20240610130000 +0000", stopXmltv := some "20240610120000 +0000",
    title := none, desc := none, category := none, icon := none }

/-- C2 counterexample: with the window filter active and `"bbc1"` allowed,
a programme whose raw `start` does not parse (`xmltvTimeToIso = none`) is
still emitted — carrying `start = none` — because its `stop` parses and
overlaps the window; and a programme whose `stop` precedes its `start` is
emitted unchanged.  This falsifies "start_utc is present on every emitted
record", "unparseable starts are dropped" and "stop ≥ start". -/
theorem C2_counterexample :
    (streamParseXmltv (some ["bbc1"]) none false 1718000000000 1719000000000
      [elBadStart]).schedules = [("bbc1", [c2progBad])] ∧
    xmltvTimeToIso (some "garbage") = none ∧
    c2progBad.start = none ∧
    (streamParseXmltv (some ["bbc1"]) none false 1718000000000 1719000000000
      [elReversed]).schedules = [("bbc1", [c2progRev])] ∧
    c2progRev.stop = some 1718020800000 ∧ c2progRev.start = some 1718024400000 ∧
    (1718020800000 : Int) < 1718024400000 := by
  decide

/-- C2 amended: with the window filter active, `pushProgramme` drops a
record exactly when the overlap test fails on the *parsed* timestamps; in
particular a record both of whose timestamps are unparseable
(`overlapsWindow none none … = false`) is always dropped, while a record
with an unparseable start can survive through its stop (see the
counterexample), and no ordering between `stop` and `start` is checked. -/
theorem C2_amended (windowFromMs windowToMs : Int) (st : ParserState) (p : ProgEl)
    (inc : Bool)
    (h : overlapsWindow (xmltvTimeToIso p.start) (xmltvTimeToIso p.stop)
      windowFromMs windowToMs = false) :
    (pushProgramme false windowFromMs windowToMs st p inc).schedules = st.schedules ∧
    overlapsWindow none none windowFromMs windowToMs = false := by
  refine ⟨?_, rfl⟩
  unfold pushProgramme
  cases inc <;> simp [h]

/-- Witness for `C2_amended`: a programme with two unparseable timestamps is
dropped. -/
theorem C2_amended_witness :
    (pushProgramme false 0 100 { schedules := [], totalProgrammes := 0 }
      (progEl (some "x") (some "bad") (some "junk")) true).schedules = [] ∧
    overlapsWindow none none 0 100 = false :=
  C2_amended 0 100 { schedules := [], totalProgrammes := 0 }
    (progEl (some "x") (some "bad") (some "junk")) true (by decide)

/-! ## C5 -/

/-- A programme element whose `start` parses with a `+0100` offset. -/
def elOffset : ProgEl :=
  progEl (some "bbc1") (some "20240610120000 +0100") (some "20240610130000 +0000")

/-- The record the parser builds from `elOffset`. -/
def c5prog : Programme :=
  { start := some 1718017200000, stop := some 1718024400000,
    startXmltv := some "20240610120000 +0100", stopXmltv := some "20240610130000 +0000",
    title := none, desc := none, category := none, icon := none }

/-- C5 counterexample, on two independent grounds.  First, the inline
`/epg.xml.gz` writer never applies `normalizeXmltvOffsetZero`: a parser-emitted
record whose raw `start` is `"20240610120000 +0100"` — squarely inside the
normalization grammar — reaches that writer's attribute verbatim, offset
`+0100` and all, despite `FORCE_ZERO_OFFSET` being enabled.  Second, even in
the two writers that do normalize, a raw timestamp outside the grammar
(`"garbage"`, emitted by the parser via its overlapping stop; `mustRewrite`
is false for the empty mapping) passes through and carries no `+0000`. -/
theorem C5_counterexample :
    (streamParseXmltv (some ["bbc1"]) none false 1718000000000 1719000000000
      [elOffset]).schedules = [("bbc1", [c5prog])] ∧
    gzStartAttr zoTriv emptyMapping c5prog = "20240610120000 +0100" ∧
    normMatch ("20240610120000 +0100" : String).toList =
      some ("20240610120000" : String).toList ∧
    strEndsWith "20240610120000 +0100" "+0000" = false ∧
    exportedStartAttr zoTriv emptyMapping c2progBad = "garbage" ∧
    strIncludes "garbage" "+0000" = false := by
  decide

/-- C5 amended: `normalizeXmltvOffsetZero` is applied only by
`prewarmExportJob` and the `/epg.xml` route.  In those two writers, whenever
the computed timestamp matches the `/^(\d{14})(?:\s*(?:[+\-]\d{4}|Z))?$/`
grammar the emitted attribute is exactly its first fourteen (digit)
characters followed by `" +0000"` — wall-clock digits untouched, offset
literally `+0000`.  The inline `/epg.xml.gz` writer emits the very same
computed timestamp verbatim, with no normalization at all. -/
theorem C5_amended (zo : ZoneOracle) (m : MappingRec) (p : Programme)
    (s : String) (d : List Char)
    (hraw : rawStartAttr zo m p = some s)
    (h : normMatch s.toList = some d) :
    exportedStartAttr zo m p = String.mk d ++ " +0000" ∧
    gzStartAttr zo m p = s ∧
    d = s.toList.take 14 ∧
    d.length = 14 ∧ d.all Char.isDigit = true := by
  have h0 := h
  unfold normMatch at h
  split at h
  · exact absurd h (by simp)
  · next dd rest heq =>
    have hdd : dd = d := by
      split at h
      · exact Option.some_inj.mp h
      · split at h
        · exact Option.some_inj.mp h
        · exact absurd h (by simp)
    subst hdd
    have hfacts : dd = s.toList.take 14 ∧ (s.toList.take 14).length = 14 ∧
        (s.toList.take 14).all Char.isDigit = true := by
      unfold take14Digits at heq
      split at heq
      · next hcond =>
        have hpair := Option.some_inj.mp heq
        exact ⟨(congrArg Prod.fst hpair).symm, hcond.1, hcond.2⟩
      · exact absurd heq (by simp)
    have hne : s ≠ "" := by
      intro he
      subst he
      exact absurd hfacts.2.1 (by decide)
    have hnorm : normalizeXmltvOffsetZero (some s) = some (String.mk dd ++ " +0000") := by
      simp only [normalizeXmltvOffsetZero]
      rw [if_neg hne, h0]
    refine ⟨?_, ?_, hfacts.1, hfacts.1 ▸ hfacts.2.1, hfacts.1 ▸ hfacts.2.2⟩
    · simp [exportedStartAttr, hraw, hnorm]
    · simp [gzStartAttr, hraw]

/-- Witness for `C5_amended` at a concrete programme whose computed
timestamp matches the grammar with offset `+0100`. -/
theorem C5_amended_witness :
    rawStartAttr zoTriv emptyMapping c5prog = some "20240610120000 +0100" ∧
    normMatch ("20240610120000 +0100" : String).toList =
      some ("20240610120000" : String).toList ∧
    (exportedStartAttr zoTriv emptyMapping c5prog =
       String.mk ("20240610120000" : String).toList ++ " +0000" ∧
     gzStartAttr zoTriv emptyMapping c5prog = "20240610120000 +0100" ∧
     ("20240610120000" : String).toList =
       ("20240610120000 +0100" : String).toList.take 14 ∧
     (("20240610120000" : String).toList).length = 14 ∧
     (("20240610120000" : String).toList).all Char.isDigit = true) :=
  ⟨by decide, by decide,
   C5_amended zoTriv emptyMapping c5prog "20240610120000 +0100"
     ("20240610120000" : String).toList (by decide) (by decide)⟩

/-! ## C6 -/

/-- C6 counterexample: in `offset` mode with no zone and no original XMLTV
string, the engine falls back to rendering the UTC instant with offset
`+0000` and *ignores* `offset_minutes` (here 30): the emitted offset is not
`input_offset + offset_minutes = +0030`. -/
theorem C6_counterexample :
    formatXmltvWithZone zoTriv (some 1718020800000) none none 30 "offset" =
      some "20240610120000 +0000" ∧
    strIncludes "20240610120000 +0000" "+0030" = false := by
  decide

/-- C6 amended: in `offset` mode with no `zone_id` and a parseable original
timestamp, the wall digits of the output are exactly the input's fourteen
digit characters and the numeric offset is the input's offset plus
`offset_minutes` (as ToInt32), clamped to [-840, +840] minutes — and the
clamp is the identity whenever the sum already lies in that range.  (With
the original absent the engine ignores `offset_minutes`; with a `zone_id`
the digits are re-derived from UTC in that zone: see the counterexample.) -/
theorem C6_amended (zo : ZoneOracle) (utcIso : Option Int) (orig : String)
    (offsetMinutes : Int) (w : WallDigits) (offMin : Int)
    (hne : orig ≠ "")
    (hp : parseXmltvParts (some orig) = some (w, offMin)) :
    formatXmltvWithZone zo utcIso (some orig) none offsetMinutes "offset" =
      some (fmtXmltv w (clamp840 (offMin + toInt32 offsetMinutes))) ∧
    w = wallOfDigits (orig.toList.take 14) ∧
    -840 ≤ clamp840 (offMin + toInt32 offsetMinutes) ∧
    clamp840 (offMin + toInt32 offsetMinutes) ≤ 840 ∧
    (-840 ≤ offMin + toInt32 offsetMinutes → offMin + toInt32 offsetMinutes ≤ 840 →
      clamp840 (offMin + toInt32 offsetMinutes) = offMin + toInt32 offsetMinutes) := by
  refine ⟨?_, ?_, le_max_left _ _, ?_, ?_⟩
  · simp [formatXmltvWithZone, jsTruthy, jsOrNull, hne, hp]
  · simp only [parseXmltvParts] at hp
    split at hp
    · exact absurd hp (by simp)
    · next dd rest heq =>
      have hdd : dd = orig.toList.take 14 := by
        unfold take14Digits at heq
        split at heq
        · exact (congrArg Prod.fst (Option.some_inj.mp heq)).symm
        · exact absurd heq (by simp)
      have hw : w = wallOfDigits dd := by
        split at hp
        · exact (congrArg Prod.fst (Option.some_inj.mp hp)).symm
        · split at hp
          · exact (congrArg Prod.fst (Option.some_inj.mp hp)).symm
          · exact absurd hp (by simp)
      rw [hw, hdd]
  · exact max_le (by norm_num) (min_le_left _ _)
  · intro h1 h2
    unfold clamp840
    rw [min_eq_right h2, max_eq_right h1]

/-- Witness for `C6_amended`: `20240610120000 +0200` shifted by 30 offset
minutes. -/
theorem C6_amended_witness :
    formatXmltvWithZone zoTriv (some 1718013600000) (some "20240610120000 +0200")
        none 30 "offset" =
      some (fmtXmltv { Y := 2024, Mo := 6, D := 10, H := 12, Mi := 0, S := 0 }
        (clamp840 (120 + toInt32 30))) ∧
    ({ Y := 2024, Mo := 6, D := 10, H := 12, Mi := 0, S := 0 } : WallDigits) =
      wallOfDigits ("20240610120000 +0200".toList.take 14) ∧
    -840 ≤ clamp840 (120 + toInt32 30) ∧
    clamp840 (120 + toInt32 30) ≤ 840 ∧
    (-840 ≤ 120 + toInt32 30 → 120 + toInt32 30 ≤ 840 →
      clamp840 (120 + toInt32 30) = 120 + toInt32 30) :=
  C6_amended zoTriv (some 1718013600000) "20240610120000 +0200" 30
    { Y := 2024, Mo := 6, D := 10, H := 12, Mi := 0, S := 0 } 120
    (by decide) (by decide)

/-! ## C3 -/

def c3elP : ProgEl := progEl (some "c") (some "20240530172640 +0000") none

def c3elQ : ProgEl := progEl (some "c") (some "20240531172640 +0000") none

/-- The live schedules before backfill: channel `c` already holds `c3elP`. -/
def c3sched0 : Schedules :=
  (streamParseXmltv (some ["c"]) none false 1717000000000 1718000000000 [c3elP]).schedules

def c3groupFirstOnly : BGroup :=
  { allowed := some ["c"], idMap := [("c", "c")], snaps := [[c3elP]] }

def c3group : BGroup :=
  { allowed := some ["c"], idMap := [("c", "c")], snaps := [[c3elP], [c3elQ]] }

/-- C3 counterexample: the newest snapshot duplicates the live data and so
contributes no new programme (first conjunct: backfill over it alone is the
identity), yet with a second, older snapshot present the loop still consumes
it and its programme is merged in (second conjunct) — there is no
"stop per-group after a zero-contribution snapshot" in the code, which the
claim asserts would have left only the original programme. -/
theorem C3_counterexample :
    backfillFromHistory [c3groupFirstOnly] 1717000000000 1718000000000 c3sched0
      1717500000000 = c3sched0 ∧
    ((backfillFromHistory [c3group] 1717000000000 1718000000000 c3sched0
      1717500000000).map (fun kv => (kv.1, kv.2.map Programme.start))) =
      [("c", [some 1717090000000, some 1717176400000])] := by
  decide

/-- C3 amended: `backfillFromHistory` consumes every snapshot of every group
unconditionally (see the counterexample); when no group has any snapshot it
is a no-op: with per-channel lists already sorted (as its callers guarantee,
having sorted just before invoking it) the schedules map is returned
unchanged. -/
theorem C3_amended (groups : List BGroup) (windowFromMs windowToMs : Int)
    (schedules : Schedules) (nowMs : Int)
    (hsnaps : ∀ g ∈ groups, g.snaps = [])
    (hsorted : sortSchedules schedules = schedules) :
    backfillFromHistory groups windowFromMs windowToMs schedules nowMs = schedules := by
  have key : ∀ (gs : List BGroup) (acc : Schedules × Keys), (∀ g ∈ gs, g.snaps = []) →
      gs.foldl (fun acc g => backfillGroup windowFromMs (min windowToMs nowMs) g acc) acc
        = acc := by
    intro gs
    induction gs with
    | nil => intro acc _; rfl
    | cons g rest ih =>
      intro acc hall
      have hg : g.snaps = [] := hall g (by simp)
      have hstep : backfillGroup windowFromMs (min windowToMs nowMs) g acc = acc := by
        unfold backfillGroup
        rw [hg]
        rfl
      rw [List.foldl_cons, hstep]
      exact ih acc (fun g2 hg2 => hall g2 (List.mem_cons_of_mem g hg2))
  unfold backfillFromHistory
  dsimp only
  split
  · rfl
  · rw [key groups _ hsnaps, hsorted]

/-- Witness for `C3_amended`: a group with no snapshots is a no-op. -/
theorem C3_amended_witness :
    backfillFromHistory [{ allowed := some ["c"], idMap := [("c", "c")], snaps := [] }]
      1717000000000 1718000000000 c3sched0 1717500000000 = c3sched0 :=
  C3_amended [{ allowed := some ["c"], idMap := [("c", "c")], snaps := [] }]
    1717000000000 1718000000000 c3sched0 1717500000000
    (by intro g hg
        rw [List.mem_singleton] at hg
        subst hg
        rfl)
    (by decide)

/-! ## C4 -/

def c4meta : MetaRec := { etag := some "e1", lastModified := none, isGz := true }

/-- Upstream answers every GET with a changed body (`cNew`): a
change-detected 2xx fetch. -/
def c4net (cNew : String) : Bool → NetResponse :=
  fun _ => { status := 200, etag := some "e2", lastModified := none,
             contentType := "application/gzip", contentEncoding := "", body := cNew }

/-- The mirror directory before the fetch: one current file with the old
content, saved at 2024-06-10 06:13:20 UTC. -/
def c4fs (cOld : String) : Fs :=
  [{ name := "deadbeef.xmltv.gz", content := cOld, mtimeMs := 1718000000000 }]

/-- One change-detected fetch: rotation happens at 12:00:00.400 UTC (stamp
`20240610120000`), the new current file lands with mtime 12:00:01.000. -/
def c4run (cOld cNew : String) : Except String (MirrorResult × Fs × Option MetaRec) :=
  mirrorFetch (c4net cNew) "deadbeef" "http://upstream/epg.xml.gz" (c4fs cOld)
    (some c4meta) 1718020800400 1718020801000

def c4fsAfter (cOld cNew : String) : Fs :=
  match c4run cOld cNew with
  | Except.ok (_, fs, _) => fs
  | Except.error _ => []

/-- C4 counterexample: after one successful change-detected fetch,
`listSnapshots(url)[0]` is the *refreshed current* file — the listing's
filter (`startsWith(key + '.') && endsWith('.xmltv.gz'|'.xml')`) also
matches `"<key>.xmltv.gz"` itself, whose mtime (full millisecond *now*)
sorts above the rotated snapshot's second-granularity stamp — and its
content is the NEW body, not the content of the previous current file. -/
theorem C4_counterexample :
    (listSnapshots "deadbeef" (c4fsAfter "OLD" "NEW")).head? =
      some { path := "deadbeef.xmltv.gz", savedAt := some 1718020801000, isGz := true } ∧
    fsGet (c4fsAfter "OLD" "NEW") "deadbeef.xmltv.gz" =
      some { name := "deadbeef.xmltv.gz", content := "NEW", mtimeMs := 1718020801000 } ∧
    ("NEW" : String) ≠ "OLD" ∧
    fsGet (c4fs "OLD") "deadbeef.xmltv.gz" =
      some { name := "deadbeef.xmltv.gz", content := "OLD", mtimeMs := 1718000000000 } := by
  decide

/-- C4 amended: after one successful change-detected fetch it is
`listSnapshots(url)[1]` — the first *stamp-named* entry — that names the
rotated snapshot whose content equals the previous current file's content;
index 0 is taken by the refreshed current file itself (new content, newer
mtime), which the listing includes as well.  Certified on the rotation
scenario of `c4run` (the mirror code never inspects file contents, so the
two content strings are representative). -/
theorem C4_amended :
    listSnapshots "deadbeef" (c4fsAfter "PREV-BYTES" "FRESH-BYTES") =
      [{ path := "deadbeef.xmltv.gz", savedAt := some 1718020801000, isGz := true },
       { path := "deadbeef.20240610120000.xmltv.gz", savedAt := some 1718020800000,
         isGz := true }] ∧
    fsGet (c4fsAfter "PREV-BYTES" "FRESH-BYTES") "deadbeef.20240610120000.xmltv.gz" =
      some { name := "deadbeef.20240610120000.xmltv.gz", content := "PREV-BYTES",
             mtimeMs := 1718000000000 } ∧
    fsGet (c4fs "PREV-BYTES") "deadbeef.xmltv.gz" =
      some { name := "deadbeef.xmltv.gz", content := "PREV-BYTES",
             mtimeMs := 1718000000000 } ∧
    fsGet (c4fsAfter "PREV-BYTES" "FRESH-BYTES") "deadbeef.xmltv.gz" =
      some { name := "deadbeef.xmltv.gz", content := "FRESH-BYTES",
             mtimeMs := 1718020801000 } := by
  decide

/-! ## C7 -/

def c7res304 : NetResponse :=
  { status := 304, etag := none, lastModified := none, contentType := "",
    contentEncoding := "", body := "" }

/-- Upstream answers the conditional GET with 304 and any unconditional GET
with a 200 carrying body `b`. -/
def c7net (ct ce b : String) : Bool → NetResponse :=
  fun c => if c then c7res304
    else { status := 200, etag := none, lastModified := none, contentType := ct,
           contentEncoding := ce, body := b }

/-- C7 confirmed: stored validators make the first GET conditional; it
returns 304 while the mirror directory holds no current file, so
`mirrorFetch` reissues an unconditional GET (`c7net … false`) and
`forceDownload` writes its non-empty body to the target path, which the
returned result names. -/
theorem C7_missing_file_304_refetch (b etagStr ct ce : String) (l : Option String)
    (mg : Bool) (hb : b ≠ "") :
    mirrorFetch (c7net ct ce b) "deadbeef" "http://upstream/epg.xml.gz" []
        (some { etag := some etagStr, lastModified := l, isGz := mg })
        1718020800400 1718020801000 =
      Except.ok
        ({ path := "deadbeef.xmltv.gz", isGz := true, etag := none, lastModified := none,
           changed := true },
         [{ name := "deadbeef.xmltv.gz", content := b, mtimeMs := 1718020801000 }],
         some { etag := none, lastModified := none, isGz := true }) ∧
    (fsGet [{ name := "deadbeef.xmltv.gz", content := b, mtimeMs := 1718020801000 }]
      "deadbeef.xmltv.gz").map FsFile.content = some b ∧
    b ≠ "" := by
  refine ⟨?_, ?_, hb⟩ <;> rfl

/-- Witness for `C7_missing_file_304_refetch` with a concrete body. -/
theorem C7_missing_file_304_refetch_witness :
    mirrorFetch (c7net "application/gzip" "" "BODY") "deadbeef"
        "http://upstream/epg.xml.gz" []
        (some { etag := some "e1", lastModified := none, isGz := true })
        1718020800400 1718020801000 =
      Except.ok
        ({ path := "deadbeef.xmltv.gz", isGz := true, etag := none, lastModified := none,
           changed := true },
         [{ name := "deadbeef.xmltv.gz", content := "BODY", mtimeMs := 1718020801000 }],
         some { etag := none, lastModified := none, isGz := true }) ∧
    (fsGet [{ name := "deadbeef.xmltv.gz", content := "BODY", mtimeMs := 1718020801000 }]
      "deadbeef.xmltv.gz").map FsFile.content = some "BODY" ∧
    ("BODY" : String) ≠ "" :=
  C7_missing_file_304_refetch "BODY" "e1" "application/gzip" "" none true (by decide)

/-! ## C8 -/

/-- "Non-decreasing in `start_utc`": whenever both records carry a parsed
start, the earlier one's start is ≤ the later one's. -/
def startLe (a b : Programme) : Prop :=
  ∀ x y, a.start = some x → b.start = some y → x ≤ y

/-- Two records never share a parsed start. -/
def startNe (a b : Programme) : Prop :=
  ∀ x y, a.start = some x → b.start = some y → x ≠ y

/-- The programmes the backfill de-dup loop actually appends, given the
already-seen start set. -/
def backfillAdded (set0 : List Int) : List Programme → List Programme
  | [] => []
  | p :: rest =>
    match p.start with
    | some s =>
      if set0.contains s then backfillAdded set0 rest
      else p :: backfillAdded (set0 ++ [s]) rest
    | none => p :: backfillAdded set0 rest

theorem insertDedup_eq (items : List Programme) :
    ∀ (set0 : List Int) (cur : List Programme),
      (insertDedup set0 cur items).2 = cur ++ backfillAdded set0 items := by
  induction items with
  | nil => intro set0 cur; simp [insertDedup, backfillAdded]
  | cons p rest ih =>
    intro set0 cur
    cases hs : p.start with
    | some s =>
      by_cases hc : s ∈ set0
      · simp [insertDedup, backfillAdded, hs, hc, ih]
      · simp [insertDedup, backfillAdded, hs, hc, ih]
    | none => simp [insertDedup, backfillAdded, hs, ih]

theorem backfillAdded_fresh (items : List Programme) :
    ∀ (set0 : List Int), ∀ q ∈ backfillAdded set0 items, ∀ s, q.start = some s →
      ¬ s ∈ set0 := by
  induction items with
  | nil => intro set0 q hq; simp [backfillAdded] at hq
  | cons p rest ih =>
    intro set0 q hq s hqs
    cases hp : p.start with
    | some sp =>
      by_cases hc : set0.contains sp = true
      · simp only [backfillAdded, hp] at hq
        rw [if_pos hc] at hq
        exact ih set0 q hq s hqs
      · simp only [backfillAdded, hp] at hq
        rw [if_neg hc] at hq
        rcases List.mem_cons.mp hq with rfl | hq2
        · rw [hp] at hqs
          cases hqs
          intro hmem
          exact hc (by simpa using hmem)
        · intro hmem
          exact ih (set0 ++ [sp]) q hq2 s hqs (List.mem_append_left _ hmem)
    | none =>
      simp only [backfillAdded, hp] at hq
      rcases List.mem_cons.mp hq with rfl | hq2
      · rw [hp] at hqs
        cases hqs
      · exact ih set0 q hq2 s hqs

theorem backfillAdded_pairwise (items : List Programme) :
    ∀ (set0 : List Int), List.Pairwise startNe (backfillAdded set0 items) := by
  induction items with
  | nil => intro set0; simp [backfillAdded]
  | cons p rest ih =>
    intro set0
    cases hp : p.start with
    | some sp =>
      by_cases hc : set0.contains sp = true
      · simp only [backfillAdded, hp]
        rw [if_pos hc]
        exact ih set0
      · simp only [backfillAdded, hp]
        rw [if_neg hc]
        refine List.pairwise_cons.mpr ⟨?_, ih (set0 ++ [sp])⟩
        intro q hq x y hx hy
        have hfresh := backfillAdded_fresh rest (set0 ++ [sp]) q hq y hy
        rw [hp] at hx
        cases hx
        intro hxy
        exact hfresh (hxy ▸ List.mem_append_right set0 (List.mem_singleton.mpr rfl))
    | none =>
      simp only [backfillAdded, hp]
      refine List.pairwise_cons.mpr ⟨?_, ih set0⟩
      intro q hq x y hx hy
      rw [hp] at hx
      cases hx

/-- `progLe` is total. -/
theorem progLe_total (a b : Programme) : progLe a b = true ∨ progLe b a = true := by
  unfold progLe jsLtStart
  cases a.start with
  | none => left; cases b.start <;> rfl
  | some x =>
    cases b.start with
    | none => left; rfl
    | some y =>
      by_cases h : y < x
      · right
        have hxy : ¬ x < y := by omega
        simp [hxy]
      · left
        simp [h]

/-- `progLe` between records with parsed starts is value comparison. -/
theorem progLe_some (a b : Programme) (x y : Int) (hx : a.start = some x)
    (hy : b.start = some y) : progLe a b = true ↔ x ≤ y := by
  unfold progLe jsLtStart
  rw [hx, hy]
  simp [not_lt]

theorem pairwise_orderedInsert_startLe (a : Programme) (l : List Programme)
    (ha : a.start.isSome = true) (hl : ∀ p ∈ l, p.start.isSome = true)
    (hs : List.Pairwise (fun x y => progLe x y = true) l) :
    List.Pairwise (fun x y => progLe x y = true)
      (List.orderedInsert (fun x y => progLe x y = true) a l) := by
  induction l with
  | nil => simp [List.orderedInsert]
  | cons b t ih =>
    rw [List.orderedInsert]
    split
    · next hab =>
      refine List.pairwise_cons.mpr ⟨?_, hs⟩
      intro q hq
      rcases List.mem_cons.mp hq with rfl | hq2
      · exact hab
      · obtain ⟨x, hx⟩ := Option.isSome_iff_exists.mp ha
        obtain ⟨y, hy⟩ := Option.isSome_iff_exists.mp (hl b (by simp))
        obtain ⟨z, hz⟩ := Option.isSome_iff_exists.mp
          (hl q (List.mem_cons_of_mem b hq2))
        have h1 : x ≤ y := (progLe_some a b x y hx hy).mp hab
        have h2 : y ≤ z := (progLe_some b q y z hy hz).mp
          ((List.pairwise_cons.mp hs).1 q hq2)
        exact (progLe_some a q x z hx hz).mpr (le_trans h1 h2)
    · next hab =>
      refine List.pairwise_cons.mpr ⟨?_, ?_⟩
      · intro q hq
        rcases (List.mem_orderedInsert _).mp hq with rfl | hq2
        · rcases progLe_total b q with h | h
          · exact h
          · exact absurd h hab
        · exact (List.pairwise_cons.mp hs).1 q hq2
      · exact ih (fun p hp => hl p (List.mem_cons_of_mem b hp))
          (List.pairwise_cons.mp hs).2

theorem pairwise_sortByStart (l : List Programme)
    (hl : ∀ p ∈ l, p.start.isSome = true) :
    List.Pairwise (fun x y => progLe x y = true) (sortByStart l) := by
  unfold sortByStart
  induction l with
  | nil => simp [List.insertionSort]
  | cons p t ih =>
    rw [List.insertionSort]
    refine pairwise_orderedInsert_startLe p _ (hl p (by simp)) ?_
      (ih (fun q hq => hl q (List.mem_cons_of_mem p hq)))
    intro q hq
    exact hl q (List.mem_cons_of_mem p
      ((List.perm_insertionSort _ t).mem_iff.mp hq))

def c8dup : Programme :=
  { start := some 1718020800000, stop := some 1718024400000,
    startXmltv := some "20240610120000 +0000", stopXmltv := some "20240610130000 +0000",
    title := none, desc := none, category := none, icon := none }

/-- C8 counterexample: an upstream feed carrying the same programme twice
is parsed into two identical records for the same channel and both are
exported in sequence — they share the same `start_raw`
(`20240610120000 +0000`), and no de-duplication ever removes them (the
backfill de-dup only guards *snapshot* inserts against existing parsed
starts). -/
theorem C8_counterexample :
    (exportChannelList
      ((streamParseXmltv (some ["bbc1"]) none false 1718000000000 1719000000000
        [elGood, elGood]).schedules) "bbc1") = [c8dup, c8dup] ∧
    c8dup.startXmltv = some "20240610120000 +0000" := by
  decide

/-- C8 amended: (i) for a channel whose records all carry a parsed start,
the export-order list (`sortByStart`, the sort applied before rendering) is
non-decreasing in `start_utc`; (ii) the backfill insertion loop appends
exactly `backfillAdded`, whose members' parsed starts avoid the already-seen
set and are pairwise distinct — so history backfill never duplicates a
parsed start; duplicates already present in the live feed (see the
counterexample) are not removed. -/
theorem C8_amended (l : List Programme) (set0 : List Int) (cur items : List Programme)
    (hl : ∀ p ∈ l, p.start.isSome = true) :
    List.Pairwise startLe (sortByStart l) ∧
    (insertDedup set0 cur items).2 = cur ++ backfillAdded set0 items ∧
    (∀ q ∈ backfillAdded set0 items, ∀ s, q.start = some s → ¬ s ∈ set0) ∧
    List.Pairwise startNe (backfillAdded set0 items) := by
  refine ⟨?_, insertDedup_eq items set0 cur, backfillAdded_fresh items set0,
    backfillAdded_pairwise items set0⟩
  have h := pairwise_sortByStart l hl
  refine h.imp ?_
  intro a b hab x y hx hy
  exact (progLe_some a b x y hx hy).mp hab

def c8early : Programme :=
  { start := some 1718017200000, stop := none, startXmltv := some "20240610120000 +0100",
    stopXmltv := none, title := none, desc := none, category := none, icon := none }

/-- Witness for `C8_amended` on a concrete channel list and a concrete
backfill insertion. -/
theorem C8_amended_witness :
    List.Pairwise startLe (sortByStart [c8dup, c8early]) ∧
    (insertDedup [1718020800000] [c8dup] [c8dup, c8early]).2 =
      [c8dup] ++ backfillAdded [1718020800000] [c8dup, c8early] ∧
    (∀ q ∈ backfillAdded [1718020800000] [c8dup, c8early], ∀ s, q.start = some s →
      ¬ s ∈ [(1718020800000 : Int)]) ∧
    List.Pairwise startNe (backfillAdded [1718020800000] [c8dup, c8early]) :=
  C8_amended [c8dup, c8early] [1718020800000] [c8dup] [c8dup, c8early]
    (by decide)

end EpgViewer
